import Mathlib

/-!
Verification development for the multipart post-submission pipeline of
showsk-rs (`src/routes/post_content/post.rs`).

The Rust route `build_post` consumes a `multipart/form-data` stream part by
part, accumulates the UTF-8 decoded chunks of parts named `"post-editor"`,
streams the bytes of a part named `"image"` (with a non-blank filename) to a
freshly created file, and finally assembles a `NewPost`.  The handler
`submit_post` guards the route with a session lookup and then persists the
post.

The embedding below is a shallow model of that code.  External effects
(the filesystem, the blocking thread pool, UUID generation, the session and
the database) are supplied as explicit inputs (`Env`, `SessionRes`, `dbOk`):
each call the Rust code makes to such a collaborator consumes the next
scripted outcome.  Rust panics (`unwrap` on `Err`/`None`) are modelled by the
distinguished outcome `panicked`, kept separate from the route's own error
enum `NewPostError`.
-/

set_option autoImplicit false

namespace Showsk

/-- The route's error enum `NewPostError` from `post.rs` (lines 22-34). -/
inductive NewPostError where
  | queryError
  | fileUploadError
  | fileUploadPathError
  | parseError
  | permissionDenied
deriving DecidableEq, Repr

/-- One chunk delivered by a part's byte stream: `field.next().await` yields
`Some(Ok(bytes))` (modelled `ok data`) or `Some(Err(_))` (modelled `err`);
the stream end is the end of the list. -/
inductive Chunk where
  | ok (data : List Nat)
  | err
deriving DecidableEq, Repr

/-- One multipart part: its content-disposition name, optional filename, and
its chunk stream.  Mirrors what `build_post` reads from a `Field`. -/
structure Part where
  name : Option String
  filename : Option String
  chunks : List Chunk
deriving DecidableEq, Repr

/-- One step of `payload.try_next().await` inside the `while let` loop:
either a part (`Ok(Some(field))`) or a stream error (`Err(_)`); the end of
the list is `Ok(None)`. -/
inductive PayloadItem where
  | part (f : Part)
  | streamErr
deriving DecidableEq, Repr

/-- Outcome of one offloaded filesystem call `web::block(...).await` followed
by the inner `io::Result`: `blockErr` is the outer `BlockingError` (caught by
the code's `map_err`), `ioErr` is an `Err` inside the closure's `io::Result`
(hit by the code's `.unwrap()`), `ok` is success. -/
inductive IoOutcome where
  | ok
  | ioErr
  | blockErr
deriving DecidableEq, Repr

/-- The scripted environment: everything `build_post` reads from the outside
world.  `dirIsDir` is the result of the initial `Path::is_dir` check;
`createDirOk1` is the success of the conditional `create_dir_all` call and
`createDirOk2` of the unconditional one; `uuids` scripts `Uuid::new_v4`
(cycling to a default once exhausted); `creates` and `writes` script the
`File::create` and `write_all` calls in program order (defaulting to `ok`
once exhausted). -/
structure Env where
  cwd : String
  dirIsDir : Bool
  createDirOk1 : Bool
  createDirOk2 : Bool
  uuids : List String
  creates : List IoOutcome
  writes : List IoOutcome
deriving DecidableEq, Repr

/-- The mutable state of one `build_post` run: the `text_body` vector, the
`filepath` variable, the log of files created on disk (path, bytes written
through that handle, in creation order), the number of consumed scripted
uuids / create outcomes / write outcomes, and the number of `create_dir_all`
invocations performed. -/
structure St where
  text_body : List String
  filepath : String
  files : List (String × List Nat)
  uuidIdx : Nat
  createIdx : Nat
  writeIdx : Nat
  dirCalls : Nat
deriving DecidableEq, Repr

/-- Result of a stateful step: normal continuation, an early return with a
`NewPostError`, or a Rust panic (an `unwrap` on `Err`/`None`).  The state is
kept in every case so that already-performed side effects stay observable. -/
inductive Step where
  | ok (s : St)
  | err (e : NewPostError) (s : St)
  | panicked (s : St)
deriving DecidableEq, Repr

/-- Scripted io outcome number `i`, defaulting to success when the script is
exhausted. -/
def getIo (l : List IoOutcome) (i : Nat) : IoOutcome :=
  (l.get? i).getD .ok

/-- Scripted uuid number `i`, defaulting to a fixed placeholder when the
script is exhausted. -/
def getUuid (l : List String) (i : Nat) : String :=
  (l.get? i).getD "id"

/-- UTF-8 decoding loop, a model of Rust's `String::from_utf8` validation:
`pending = some (cp, need, lo, hi)` means a multi-byte sequence is in
progress with accumulated codepoint bits `cp`, `need` continuation bytes
still expected, and the next byte constrained to `[lo, hi]` (the first
continuation byte's range encodes the overlong / surrogate / out-of-range
exclusions, exactly as Rust's validator does). -/
def utf8Aux : List Nat → List Char → Option (Nat × Nat × Nat × Nat) → Option (List Char)
  | [], acc, none => some acc.reverse
  | [], _, some _ => none
  | b :: bs, acc, none =>
    if b < 0x80 then utf8Aux bs (Char.ofNat b :: acc) none
    else if b < 0xC2 then none
    else if b ≤ 0xDF then utf8Aux bs acc (some (b - 0xC0, 1, 0x80, 0xBF))
    else if b = 0xE0 then utf8Aux bs acc (some (0, 2, 0xA0, 0xBF))
    else if b ≤ 0xEC then utf8Aux bs acc (some (b - 0xE0, 2, 0x80, 0xBF))
    else if b = 0xED then utf8Aux bs acc (some (0xD, 2, 0x80, 0x9F))
    else if b ≤ 0xEF then utf8Aux bs acc (some (b - 0xE0, 2, 0x80, 0xBF))
    else if b = 0xF0 then utf8Aux bs acc (some (0, 3, 0x90, 0xBF))
    else if b ≤ 0xF3 then utf8Aux bs acc (some (b - 0xF0, 3, 0x80, 0xBF))
    else if b = 0xF4 then utf8Aux bs acc (some (4, 3, 0x80, 0x8F))
    else none
  | b :: bs, acc, some (cp, need, lo, hi) =>
    if lo ≤ b ∧ b ≤ hi then
      if need = 1 then utf8Aux bs (Char.ofNat (cp * 64 + (b - 0x80)) :: acc) none
      else utf8Aux bs acc (some (cp * 64 + (b - 0x80), need - 1, 0x80, 0xBF))
    else none

/-- Model of Rust's `String::from_utf8(data.to_vec())`: `some` the decoded
string exactly when the byte list is valid UTF-8. -/
def utf8Decode (bs : List Nat) : Option String :=
  (utf8Aux bs [] none).map fun cs => String.mk cs

/-- A character removed by the `sanitize_filename` crate: the filesystem
special characters of its illegal-character class and the C0/C1 control
ranges. -/
def sanitizeIllegal (c : Char) : Bool :=
  c = '/' || c = '?' || c = '<' || c = '>' || c = '\\' || c = ':' ||
    c = '*' || c = '|' || c = '"' || c.toNat < 0x20 ||
    (0x80 ≤ c.toNat && c.toNat ≤ 0x9F)

/-- Model of the external `sanitize_filename::sanitize` crate function used
at `post.rs:117`: illegal characters are removed and a residue consisting
only of dots (the crate's reserved `^\.+$` class, which is what `..` becomes)
is replaced by the empty string.  The crate's Windows-only rules and its
255-byte truncation are omitted as environment-specific. -/
def sanitize (s : String) : String :=
  let kept := s.toList.filter fun c => !(sanitizeIllegal c)
  if kept ≠ [] ∧ kept.all fun c => c = '.' then "" else String.mk kept

/-- Model of Rust's `str::trim` (used at `post.rs:112` and in the body
validation): drop Unicode whitespace from both ends. -/
def rustTrim (s : String) : String :=
  String.mk (((s.toList.dropWhile Char.isWhitespace).reverse.dropWhile
    Char.isWhitespace).reverse)

/-- Model of Rust's `Vec::join` on strings (used at `post.rs:138`). -/
def rustJoin (sep : String) : List String → String
  | [] => ""
  | [x] => x
  | x :: xs => x ++ sep ++ rustJoin sep xs

/-- The final domain object.  Modelled from the spec: the type
`crate::domain::post::NewPost` lives in `src/domain/post.rs`, which is not
part of the provided sources.  Per the spec it is
`{ body: NonEmptyString, image: { path: string } }`; the image path is the
recorded relative path, `""` meaning "no image". -/
structure NewPost where
  body : String
  image : String
deriving DecidableEq, Repr

/-- Modelled from the spec: the `NewPost::new` constructor (missing from the
provided sources together with `src/domain/post.rs`).  Per the spec it
"fails if body is empty after trimming/joining" and otherwise stores the
body and image path verbatim; absence of an image is permitted. -/
def NewPost.new (body image : String) : Option NewPost :=
  if rustTrim body = "" then none else some ⟨body, image⟩

/-- The inner chunk loop for a `"post-editor"` part (`post.rs:103-108`):
each chunk is `unwrap`ped (a read error panics), decoded as UTF-8 on its own
(failure is `ParseError`), and the decoded string is pushed onto
`text_body`. -/
def readTextChunks : List Chunk → St → Step
  | [], s => .ok s
  | .err :: _, s => .panicked s
  | .ok data :: rest, s =>
    match utf8Decode data with
    | none => .err .parseError s
    | some str => readTextChunks rest { s with text_body := s.text_body ++ [str] }

/-- Append `data` to the bytes of the file at index `i` of the creation
log (the write through an open handle). -/
def appendToFile (files : List (String × List Nat)) (i : Nat) (data : List Nat) :
    List (String × List Nat) :=
  match files.get? i with
  | some (p, c) => files.set i (p, c ++ data)
  | none => files

/-- The inner chunk loop for an accepted `"image"` part (`post.rs:129-135`):
each chunk is `unwrap`ped (a read error panics), then written through the
open handle by an offloaded `write_all`; a `BlockingError` is mapped to
`FileUploadError`, while an `Err` of the inner `io::Result` is `unwrap`ped
(a panic). -/
def writeFileChunks (env : Env) (hIdx : Nat) : List Chunk → St → Step
  | [], s => .ok s
  | .err :: _, s => .panicked s
  | .ok data :: rest, s =>
    match getIo env.writes s.writeIdx with
    | .blockErr => .err .fileUploadError { s with writeIdx := s.writeIdx + 1 }
    | .ioErr => .panicked { s with writeIdx := s.writeIdx + 1 }
    | .ok =>
      writeFileChunks env hIdx rest
        { s with writeIdx := s.writeIdx + 1,
                 files := appendToFile s.files hIdx data }

/-- Handling of one part (`post.rs:98-136`): `get_name().unwrap()` panics on
a nameless part; a `"post-editor"` part runs the text loop; an `"image"`
part first `unwrap`s the filename (panicking when it is absent), ignores the
part when the trimmed filename is empty, and otherwise computes the stored
filename `{uuid}-{sanitized}`, the absolute path `uppath/filename` and the
relative path `../u_path/filename`, creates the destination file (a
`BlockingError` is `FileUploadError`, an io error is `unwrap`ped), and
streams the chunks to it; any other name is ignored. -/
def processPart (env : Env) (u_path uppath : String) (f : Part) (s : St) : Step :=
  match f.name with
  | none => .panicked s
  | some nm =>
    if nm = "post-editor" then readTextChunks f.chunks s
    else if nm = "image" then
      match f.filename with
      | none => .panicked s
      | some fn =>
        if rustTrim fn = "" then .ok s
        else
          let fname := getUuid env.uuids s.uuidIdx ++ "-" ++ sanitize fn
          let upload_str := uppath ++ "/" ++ fname
          let s1 : St := { s with uuidIdx := s.uuidIdx + 1,
                                  filepath := "../" ++ u_path ++ "/" ++ fname }
          match getIo env.creates s1.createIdx with
          | .blockErr => .err .fileUploadError { s1 with createIdx := s1.createIdx + 1 }
          | .ioErr => .panicked { s1 with createIdx := s1.createIdx + 1 }
          | .ok =>
            writeFileChunks env s1.files.length f.chunks
              { s1 with createIdx := s1.createIdx + 1,
                        files := s1.files ++ [(upload_str, [])] }
    else .ok s

/-- The `while let Ok(Some(field)) = payload.try_next().await` loop
(`post.rs:97-137`): parts are processed in order; a stream error ends the
loop silently (the `while let` pattern fails to match); an error or panic
inside a part aborts the run. -/
def buildLoop (env : Env) (u_path uppath : String) : List PayloadItem → St → Step
  | [], s => .ok s
  | .streamErr :: _, s => .ok s
  | .part f :: rest, s =>
    match processPart env u_path uppath f s with
    | .ok s1 => buildLoop env u_path uppath rest s1
    | .err e s1 => .err e s1
    | .panicked s1 => .panicked s1

/-- The initial state of a `build_post` run. -/
def initSt : St :=
  { text_body := [], filepath := "", files := [], uuidIdx := 0,
    createIdx := 0, writeIdx := 0, dirCalls := 0 }

/-- State after the directory-preparation prologue succeeded: the
conditional `create_dir_all` ran exactly when the directory was missing, and
the unconditional one always ran. -/
def dirSt (env : Env) : St :=
  { initSt with dirCalls := (if env.dirIsDir then 0 else 1) + 1 }

/-- Result of a whole `build_post` run. -/
inductive BuildResult where
  | ok (p : NewPost) (s : St)
  | err (e : NewPostError) (s : St)
  | panicked (s : St)
deriving DecidableEq, Repr

/-- The model of `build_post` (`post.rs:87-140`).  The upload root is
resolved against the working directory (`current_dir().join(u_path)`,
modelled as string concatenation); when the directory is missing,
`create_dir_all` runs with failure mapped to `FileUploadPathError`
(`post.rs:90-93`); then a second, unconditional `create_dir_all` runs with
failure mapped to `FileUploadError` (`post.rs:94`); the part loop runs; and
finally the joined text and recorded `filepath` are handed to
`NewPost::new`, whose failure is mapped to `ParseError` (`post.rs:138-139`). -/
def build_post (payload : List PayloadItem) (u_path : String) (env : Env) : BuildResult :=
  let uppath := env.cwd ++ "/" ++ u_path
  if !env.dirIsDir && !env.createDirOk1 then
    .err .fileUploadPathError { initSt with dirCalls := 1 }
  else if !env.createDirOk2 then .err .fileUploadError (dirSt env)
  else
    match buildLoop env u_path uppath payload (dirSt env) with
    | .ok s =>
      match NewPost.new (rustJoin " " s.text_body) s.filepath with
      | some p => .ok p s
      | none => .err .parseError s
    | .err e s => .err e s
    | .panicked s => .panicked s

/-- Result of the session lookup `session.get_user_id()`
(`post.rs:60-62`): the call itself may fail, or return no identity, or an
identity. -/
inductive SessionRes where
  | sessErr
  | anon
  | user (uid : String)
deriving DecidableEq, Repr

/-- Result of a whole `submit_post` request, paired below with the
filesystem state and a flag recording whether the database insert was
attempted. -/
inductive SubmitResult where
  | seeOther (loc : String)
  | found (loc : String)
  | err (e : NewPostError)
  | panicked
deriving DecidableEq, Repr

/-- The model of the handler `submit_post` (`post.rs:54-81`): a failing
session lookup is `PermissionDenied`; a missing identity short-circuits to a
`303 See Other` redirect to `/login` before `build_post` runs; otherwise
`build_post` runs and, on success, `insert_post` is attempted, a failure
being `QueryError` and success a `302 Found` redirect to `/`. -/
def submit_post (session : SessionRes) (payload : List PayloadItem)
    (u_path : String) (env : Env) (dbOk : Bool) : SubmitResult × St × Bool :=
  match session with
  | .sessErr => (.err .permissionDenied, initSt, false)
  | .anon => (.seeOther "/login", initSt, false)
  | .user _ =>
    match build_post payload u_path env with
    | .ok _ s => if dbOk then (.found "/", s, true) else (.err .queryError, s, true)
    | .err e s => (.err e, s, false)
    | .panicked s => (.panicked, s, false)

/-! ## Specification-side descriptions

Pure functions describing what the demultiplexer is expected to produce,
used to state the functional-correctness theorems below. -/

/-- The strings a `"post-editor"` part contributes to `text_body`: the
UTF-8 decoding of each decodable chunk, in arrival order. -/
def decodedTexts : List Chunk → List String
  | [] => []
  | .err :: rest => decodedTexts rest
  | .ok d :: rest =>
    match utf8Decode d with
    | none => decodedTexts rest
    | some str => str :: decodedTexts rest

/-- The concatenation, in arrival order, of the bytes of a part's
successfully read chunks. -/
def okChunkData : List Chunk → List Nat
  | [] => []
  | .err :: rest => okChunkData rest
  | .ok d :: rest => d ++ okChunkData rest

/-- The state transformation of one successfully handled part: the
specification-side description of `processPart` on its non-failing paths. -/
def partNext (env : Env) (u_path uppath : String) (f : Part) (s : St) : St :=
  match f.name with
  | none => s
  | some nm =>
    if nm = "post-editor" then
      { s with text_body := s.text_body ++ decodedTexts f.chunks }
    else if nm = "image" then
      match f.filename with
      | none => s
      | some fn =>
        if rustTrim fn = "" then s
        else
          let fname := getUuid env.uuids s.uuidIdx ++ "-" ++ sanitize fn
          { s with uuidIdx := s.uuidIdx + 1,
                   createIdx := s.createIdx + 1,
                   writeIdx := s.writeIdx + f.chunks.length,
                   filepath := "../" ++ u_path ++ "/" ++ fname,
                   files := s.files ++ [(uppath ++ "/" ++ fname, okChunkData f.chunks)] }
    else s

/-- Pure description of a whole successful part-loop run. -/
def loopNext (env : Env) (u_path uppath : String) : List PayloadItem → St → St
  | [], s => s
  | .streamErr :: _, s => s
  | .part f :: rest, s => loopNext env u_path uppath rest (partNext env u_path uppath f s)

/-- The filename of an `"image"` part that the demultiplexer accepts (a
present, non-blank-after-trim filename). -/
def acceptedImage (f : Part) : Option String :=
  match f.name, f.filename with
  | some nm, some fn =>
    if nm = "image" ∧ ¬rustTrim fn = "" then some fn else none
  | _, _ => none

/-- Number of accepted image parts (each consumes one scripted uuid). -/
def acceptedCount : List PayloadItem → Nat
  | [] => 0
  | .streamErr :: _ => 0
  | .part f :: rest =>
    (match acceptedImage f with | some _ => 1 | none => 0) + acceptedCount rest

/-- The files (absolute path, full byte content) the demultiplexer is
expected to create for a payload, starting from scripted-uuid index `uidx`:
one file per accepted image part, its content the concatenation of the
part's chunk bytes in arrival order. -/
def expectedFiles (env : Env) (uppath : String) : List PayloadItem → Nat → List (String × List Nat)
  | [], _ => []
  | .streamErr :: _, _ => []
  | .part f :: rest, uidx =>
    match acceptedImage f with
    | some fn =>
      (uppath ++ "/" ++ (getUuid env.uuids uidx ++ "-" ++ sanitize fn), okChunkData f.chunks)
        :: expectedFiles env uppath rest (uidx + 1)
    | none => expectedFiles env uppath rest uidx

/-- The text strings the demultiplexer is expected to accumulate: the
per-chunk UTF-8 decodings of every `"post-editor"` part, in arrival order. -/
def expectedTexts : List PayloadItem → List String
  | [] => []
  | .streamErr :: _ => []
  | .part f :: rest =>
    (if f.name = some "post-editor" then decodedTexts f.chunks else []) ++ expectedTexts rest

/-- A benign default environment for concrete runs: the upload directory
already exists and every scripted collaborator call succeeds. -/
def envD : Env :=
  { cwd := "/app", dirIsDir := true, createDirOk1 := true, createDirOk2 := true,
    uuids := [], creates := [], writes := [] }

/-! ## Supporting lemmas -/

theorem listGetAppendLen {α : Type} (l : List α) (a : α) :
    (l ++ [a]).get? l.length = some a := by
  induction l with
  | nil => rfl
  | cons b t ih => simp

theorem listSetAppendLen {α : Type} (l : List α) (a b : α) :
    (l ++ [a]).set l.length b = l ++ [b] := by
  induction l with
  | nil => rfl
  | cons c t ih => simp [List.set, ih]

theorem listGetSetSame {α : Type} (l : List α) (i : Nat) (x y : α)
    (h : l.get? i = some y) : (l.set i x).get? i = some x := by
  induction l generalizing i with
  | nil => simp at h
  | cons c t ih =>
    cases i with
    | zero => rfl
    | succ n =>
      simp only [List.get?] at h
      simpa [List.set] using ih n h

theorem listSetSame {α : Type} (l : List α) (i : Nat) (y : α)
    (h : l.get? i = some y) : l.set i y = l := by
  induction l generalizing i with
  | nil => rfl
  | cons c t ih =>
    cases i with
    | zero => simp only [List.get?, Option.some.injEq] at h; simp [List.set, h]
    | succ n =>
      simp only [List.get?] at h
      simp [List.set, ih n h]

theorem listSetSetSame {α : Type} (l : List α) (i : Nat) (x y : α) :
    (l.set i x).set i y = l.set i y := by
  induction l generalizing i with
  | nil => rfl
  | cons c t ih =>
    cases i with
    | zero => rfl
    | succ n => simp [List.set, ih n]

theorem readTextChunks_ok (cs : List Chunk) : ∀ s s1 : St,
    readTextChunks cs s = .ok s1 →
    s1 = { s with text_body := s.text_body ++ decodedTexts cs } := by
  induction cs with
  | nil =>
    intro s s1 h
    simp only [readTextChunks, Step.ok.injEq] at h
    simp [decodedTexts, ← h]
  | cons c rest ih =>
    intro s s1 h
    match c with
    | .err => simp [readTextChunks] at h
    | .ok d =>
      rw [readTextChunks] at h
      split at h
      · simp at h
      · rename_i str hd
        have h2 := ih _ _ h
        subst h2
        simp [decodedTexts, hd]

theorem readTextChunks_err (pre : List (List Nat)) (bad : List Nat) (rest : List Chunk) :
    ∀ s : St, (∀ d ∈ pre, (utf8Decode d).isSome) → utf8Decode bad = none →
    readTextChunks (pre.map Chunk.ok ++ Chunk.ok bad :: rest) s =
      .err .parseError { s with text_body := s.text_body ++ decodedTexts (pre.map Chunk.ok) } := by
  induction pre with
  | nil => intro s hpre hbad; simp [readTextChunks, hbad, decodedTexts]
  | cons d t ih =>
    intro s hpre hbad
    have hd : (utf8Decode d).isSome := hpre d (by simp)
    obtain ⟨str, hstr⟩ := Option.isSome_iff_exists.mp hd
    simp only [List.map_cons, List.cons_append, readTextChunks, hstr, List.append_eq]
    rw [ih _ (fun x hx => hpre x (by simp [hx])) hbad]
    simp [decodedTexts, hstr, List.append_assoc]

theorem writeFileChunks_ok (env : Env) (hIdx : Nat) (cs : List Chunk) :
    ∀ (s s1 : St) (path : String) (acc : List Nat),
    s.files.get? hIdx = some (path, acc) →
    writeFileChunks env hIdx cs s = .ok s1 →
    s1 = { s with files := s.files.set hIdx (path, acc ++ okChunkData cs),
                  writeIdx := s.writeIdx + cs.length } := by
  induction cs with
  | nil =>
    intro s s1 path acc hget h
    simp only [writeFileChunks, Step.ok.injEq] at h
    subst h
    simp [okChunkData, listSetSame _ _ _ hget]
  | cons c rest ih =>
    intro s s1 path acc hget h
    match c with
    | .err => simp [writeFileChunks] at h
    | .ok d =>
      rw [writeFileChunks] at h
      split at h
      · simp at h
      · simp at h
      · rw [appendToFile, hget] at h
        have hget2 : ((s.files.set hIdx (path, acc ++ d)).get? hIdx) = some (path, acc ++ d) :=
          listGetSetSame _ _ _ _ hget
        have h2 := ih _ _ _ _ hget2 h
        subst h2
        simp [okChunkData, listSetSetSame, St.mk.injEq, List.append_assoc]
        omega

theorem processPart_ok (env : Env) (u_path uppath : String) (f : Part) (s s1 : St)
    (h : processPart env u_path uppath f s = .ok s1) :
    s1 = partNext env u_path uppath f s := by
  obtain ⟨nm?, fn?, cs⟩ := f
  match nm? with
  | none => simp [processPart] at h
  | some nm =>
    by_cases h1 : nm = "post-editor"
    · subst h1
      simp only [processPart] at h
      simp only [partNext, if_pos rfl]
      exact readTextChunks_ok _ _ _ (by simpa using h)
    · by_cases h2 : nm = "image"
      · subst h2
        match fn? with
        | none => simp [processPart, h1] at h
        | some fn =>
          by_cases h3 : rustTrim fn = ""
          · simp [processPart, partNext, h1, h3] at h ⊢
            exact h.symm
          · simp only [processPart, h1, h3] at h
            simp only [if_true, if_false] at h
            split at h
            · simp at h
            · simp at h
            · have hget : ((s.files ++
                  [(uppath ++ "/" ++ (getUuid env.uuids s.uuidIdx ++ "-" ++ sanitize fn),
                    ([] : List Nat))]).get? s.files.length) =
                  some (uppath ++ "/" ++ (getUuid env.uuids s.uuidIdx ++ "-" ++ sanitize fn),
                    ([] : List Nat)) := listGetAppendLen _ _
              have h4 := writeFileChunks_ok env s.files.length cs _ _ _ _ hget h
              subst h4
              simp [partNext, h1, h3, listSetAppendLen, St.mk.injEq]
      · simp [processPart, partNext, h1, h2] at h ⊢
        exact h.symm

theorem buildLoop_ok (env : Env) (u_path uppath : String) :
    ∀ (items : List PayloadItem) (s s1 : St),
    buildLoop env u_path uppath items s = .ok s1 →
    s1 = loopNext env u_path uppath items s := by
  intro items
  induction items with
  | nil => intro s s1 h; simp [buildLoop, loopNext] at h ⊢; exact h.symm
  | cons it rest ih =>
    intro s s1 h
    match it with
    | .streamErr => simp [buildLoop, loopNext] at h ⊢; exact h.symm
    | .part f =>
      rw [buildLoop] at h
      split at h
      · rename_i s2 heq
        rw [loopNext]
        rw [← processPart_ok env u_path uppath f s s2 heq]
        exact ih _ _ h
      · simp at h
      · simp at h

theorem partNext_files (env : Env) (u_path uppath : String) (f : Part) (s : St) :
    (partNext env u_path uppath f s).files =
      s.files ++ (match acceptedImage f with
        | some fn =>
          [(uppath ++ "/" ++ (getUuid env.uuids s.uuidIdx ++ "-" ++ sanitize fn),
            okChunkData f.chunks)]
        | none => []) ∧
    (partNext env u_path uppath f s).uuidIdx =
      s.uuidIdx + (match acceptedImage f with | some _ => 1 | none => 0) ∧
    (partNext env u_path uppath f s).text_body =
      s.text_body ++ (if f.name = some "post-editor" then decodedTexts f.chunks else []) := by
  obtain ⟨nm?, fn?, cs⟩ := f
  match nm? with
  | none => simp [partNext, acceptedImage]
  | some nm =>
    by_cases h1 : nm = "post-editor"
    · subst h1
      simp [partNext, acceptedImage]
      match fn? with
      | none => simp
      | some fn => simp
    · by_cases h2 : nm = "image"
      · subst h2
        match fn? with
        | none => simp [partNext, acceptedImage, h1]
        | some fn =>
          by_cases h3 : rustTrim fn = ""
          · simp [partNext, acceptedImage, h1, h3]
          · simp [partNext, acceptedImage, h1, h3]
      · simp [partNext, acceptedImage, h1, h2]
        match fn? with
        | none => simp
        | some fn => simp [h2]

theorem loopNext_files (env : Env) (u_path uppath : String) :
    ∀ (items : List PayloadItem) (s : St),
    (loopNext env u_path uppath items s).files =
      s.files ++ expectedFiles env uppath items s.uuidIdx ∧
    (loopNext env u_path uppath items s).uuidIdx = s.uuidIdx + acceptedCount items := by
  intro items
  induction items with
  | nil => intro s; simp [loopNext, expectedFiles, acceptedCount]
  | cons it rest ih =>
    intro s
    match it with
    | .streamErr => simp [loopNext, expectedFiles, acceptedCount]
    | .part f =>
      obtain ⟨hf, hu, -⟩ := partNext_files env u_path uppath f s
      obtain ⟨ihf, ihu⟩ := ih (partNext env u_path uppath f s)
      rw [loopNext]
      cases hacc : acceptedImage f with
      | none =>
        rw [hacc] at hf hu
        simp only [List.append_nil, Nat.add_zero] at hf hu
        refine ⟨?_, ?_⟩
        · rw [ihf, hf, hu]
          simp [expectedFiles, hacc]
        · rw [ihu, hu]
          simp [acceptedCount, hacc]
      | some fn =>
        rw [hacc] at hf hu
        refine ⟨?_, ?_⟩
        · rw [ihf, hf, hu]
          simp [expectedFiles, hacc, List.append_assoc]
        · rw [ihu, hu]
          simp [acceptedCount, hacc]
          omega

theorem loopNext_text (env : Env) (u_path uppath : String) :
    ∀ (items : List PayloadItem) (s : St),
    (loopNext env u_path uppath items s).text_body =
      s.text_body ++ expectedTexts items := by
  intro items
  induction items with
  | nil => intro s; simp [loopNext, expectedTexts]
  | cons it rest ih =>
    intro s
    match it with
    | .streamErr => simp [loopNext, expectedTexts]
    | .part f =>
      obtain ⟨-, -, ht⟩ := partNext_files env u_path uppath f s
      rw [loopNext, ih, ht]
      simp [expectedTexts, List.append_assoc]

theorem buildLoop_streamErr (env : Env) (u_path uppath : String) :
    ∀ (pre rest : List PayloadItem) (s : St),
    buildLoop env u_path uppath (pre ++ .streamErr :: rest) s =
      buildLoop env u_path uppath pre s := by
  intro pre
  induction pre with
  | nil => intro rest s; simp [buildLoop]
  | cons it t ih =>
    intro rest s
    match it with
    | .streamErr => simp [buildLoop]
    | .part f =>
      rw [List.cons_append, buildLoop, buildLoop]
      cases processPart env u_path uppath f s with
      | ok s1 => exact ih rest s1
      | err e s1 => rfl
      | panicked s1 => rfl

theorem sanitize_no_illegal (fn : String) :
    ∀ c ∈ (sanitize fn).toList, sanitizeIllegal c = false := by
  intro c hc
  rw [sanitize] at hc
  split at hc
  · simp [String.toList] at hc
  · simp only [String.toList] at hc
    have := List.mem_filter.mp hc
    simpa using this.2

/-! ## Claim theorems -/

/-- Claim C1 (code bug evaluation): for an `"image"` part with a non-blank
filename, an io failure of `File::create`, of a chunk read, or of
`write_all` makes the request PANIC (the `.unwrap()` calls at
`post.rs:125-134`) instead of failing with `FileUploadError` as the claim
and spec state; only the blocking-pool error path is mapped to
`FileUploadError`. -/
theorem build_post_create_io_error_panics :
    build_post [.part ⟨some "image", some "a.png", []⟩] "up"
        { envD with creates := [.ioErr] } =
      .panicked { initSt with filepath := "../up/id-a.png", uuidIdx := 1,
                              createIdx := 1, dirCalls := 1 } ∧
    build_post [.part ⟨some "image", some "a.png", [.ok [7]]⟩] "up"
        { envD with writes := [.ioErr] } =
      .panicked { initSt with filepath := "../up/id-a.png", uuidIdx := 1,
                              createIdx := 1, writeIdx := 1, dirCalls := 1,
                              files := [("/app/up/id-a.png", [])] } ∧
    build_post [.part ⟨some "image", some "a.png", [.err]⟩] "up" envD =
      .panicked { initSt with filepath := "../up/id-a.png", uuidIdx := 1,
                              createIdx := 1, dirCalls := 1,
                              files := [("/app/up/id-a.png", [])] } ∧
    build_post [.part ⟨some "image", some "a.png", []⟩] "up"
        { envD with creates := [.blockErr] } =
      .err .fileUploadError { initSt with filepath := "../up/id-a.png", uuidIdx := 1,
                                          createIdx := 1, dirCalls := 1 } := by
  refine ⟨by decide, by decide, by decide, by decide⟩

/-- Claim C2 (code bug evaluation): an `"image"` part with a present but
blank (all-whitespace) filename is indeed ignored entirely — no file, no
error — but an `"image"` part with an ABSENT filename makes the request
panic (`get_filename().unwrap()` at `post.rs:112`), contradicting the
claim's no-crash assertion for the absent-filename case. -/
theorem build_post_absent_filename_panics :
    build_post [.part ⟨some "image", none, []⟩] "up" envD = .panicked (dirSt envD) ∧
    build_post [.part ⟨some "post-editor", none, [.ok [104, 105]]⟩,
                .part ⟨some "image", some "   ", [.ok [1]]⟩] "up" envD =
      .ok ⟨"hi", ""⟩ { dirSt envD with text_body := ["hi"] } := by
  refine ⟨by decide, by decide⟩

/-- Claim C3 counterexample: when the upload directory already exists, the
only `create_dir_all` call is the unconditional one at `post.rs:94`, and its
failure is reported as the generic `FileUploadError` — refuting the claim
that a directory-creation failure is `FileUploadPathError`, never
`FileUploadError`. -/
theorem dir_create_failure_generic_error_cex :
    build_post [] "uploads" { envD with createDirOk2 := false } =
      .err .fileUploadError (dirSt { envD with createDirOk2 := false }) ∧
    NewPostError.fileUploadError ≠ NewPostError.fileUploadPathError := by decide

/-- Claim C3 (amended): `build_post` resolves the upload root against the
working directory and prepares it before consuming any part (the resulting
error states are payload-independent, with no file and no text consumed).
When the directory is missing, the failure of the conditional
`create_dir_all` is `FileUploadPathError`; but the code then invokes
`create_dir_all` a second time unconditionally, and a failure of that
second invocation is the generic `FileUploadError`. -/
theorem build_post_dir_bootstrap (payload : List PayloadItem) (u_path : String) (env : Env) :
    (env.dirIsDir = false → env.createDirOk1 = false →
      build_post payload u_path env = .err .fileUploadPathError { initSt with dirCalls := 1 }) ∧
    ((env.dirIsDir = true ∨ env.createDirOk1 = true) → env.createDirOk2 = false →
      build_post payload u_path env = .err .fileUploadError (dirSt env)) := by
  constructor
  · intro h1 h2
    simp [build_post, h1, h2]
  · intro h1 h2
    rcases h1 with h1 | h1 <;> simp [build_post, h1, h2]

/-- Witness for the C3 amended theorem at concrete inputs, discharging both
hypothesis branches. -/
theorem build_post_dir_bootstrap_witness :
    build_post [.part ⟨some "post-editor", none, [.ok [104]]⟩] "up"
        { envD with dirIsDir := false, createDirOk1 := false } =
      .err .fileUploadPathError { initSt with dirCalls := 1 } ∧
    build_post [] "up" { envD with createDirOk2 := false } =
      .err .fileUploadError (dirSt { envD with createDirOk2 := false }) :=
  ⟨(build_post_dir_bootstrap _ _ _).1 rfl rfl,
   (build_post_dir_bootstrap _ _ _).2 (Or.inl rfl) rfl⟩

/-- Claim C4: whenever `build_post` succeeds, the files created on disk are
exactly one per accepted `"image"` part, each holding the concatenation of
that part's chunk bytes in arrival order (written sequentially through the
open handle), at the absolute path `upload_root/stored_filename`. -/
theorem build_post_file_content_concat (payload : List PayloadItem) (u_path : String)
    (env : Env) (p : NewPost) (s : St)
    (h : build_post payload u_path env = .ok p s) :
    s.files = expectedFiles env (env.cwd ++ "/" ++ u_path) payload 0 := by
  simp only [build_post] at h
  split at h
  · simp at h
  · split at h
    · simp at h
    · split at h
      · rename_i s0 hloop
        split at h
        · rename_i p0 hnew
          simp only [BuildResult.ok.injEq] at h
          obtain ⟨-, hs⟩ := h
          subst hs
          have h1 := buildLoop_ok env u_path (env.cwd ++ "/" ++ u_path) payload (dirSt env) s0 hloop
          subst h1
          have h2 := (loopNext_files env u_path (env.cwd ++ "/" ++ u_path) payload (dirSt env)).1
          rw [h2]
          simp [dirSt, initSt]
        · simp at h
      · simp at h
      · simp at h

/-- Witness for C4: a two-part request whose image part has chunks
`[1,2]` and `[3]` stores one file with content `[1,2,3]`. -/
theorem build_post_file_content_concat_witness :
    ({ text_body := ["x"], filepath := "../up/id-cat.png",
       files := [("/app/up/id-cat.png", [1, 2, 3])], uuidIdx := 1, createIdx := 1,
       writeIdx := 2, dirCalls := 1 } : St).files =
      expectedFiles envD (envD.cwd ++ "/" ++ "up")
        [.part ⟨some "post-editor", none, [.ok [120]]⟩,
         .part ⟨some "image", some "cat.png", [.ok [1, 2], .ok [3]]⟩] 0 :=
  build_post_file_content_concat _ "up" envD ⟨"x", "../up/id-cat.png"⟩ _ (by decide)

/-- Claim C5: whenever `build_post` succeeds, the body of the assembled
`NewPost` is the UTF-8 decoded chunks of the `"post-editor"` parts, in
arrival order, joined with a single space separator. -/
theorem build_post_body_join (payload : List PayloadItem) (u_path : String)
    (env : Env) (p : NewPost) (s : St)
    (h : build_post payload u_path env = .ok p s) :
    p.body = rustJoin " " (expectedTexts payload) := by
  simp only [build_post] at h
  split at h
  · simp at h
  · split at h
    · simp at h
    · split at h
      · rename_i s0 hloop
        split at h
        · rename_i p0 hnew
          simp only [BuildResult.ok.injEq] at h
          obtain ⟨hp, hs⟩ := h
          subst hp
          rw [NewPost.new] at hnew
          split at hnew
          · simp at hnew
          · simp only [Option.some.injEq] at hnew
            subst hnew
            have h1 := buildLoop_ok env u_path (env.cwd ++ "/" ++ u_path) payload (dirSt env) s0 hloop
            subst h1
            have h2 := loopNext_text env u_path (env.cwd ++ "/" ++ u_path) payload (dirSt env)
            rw [NewPost.body, h2]
            simp [dirSt, initSt]
        · simp at h
      · simp at h
      · simp at h

/-- Witness for C5: the chunks `"hello"` and `"world"` yield the body
`"hello world"`. -/
theorem build_post_body_join_witness :
    (NewPost.mk "hello world" "").body =
      rustJoin " " (expectedTexts
        [.part ⟨some "post-editor", none,
          [.ok [104, 101, 108, 108, 111], .ok [119, 111, 114, 108, 100]]⟩]) :=
  build_post_body_join _ "up" envD (NewPost.mk "hello world" "")
    { dirSt envD with text_body := ["hello", "world"] } (by decide)

/-- Claim C6: each chunk of a `"post-editor"` part is UTF-8 decoded
independently of all other chunks, in arrival order; the first chunk whose
bytes are not themselves a valid UTF-8 sequence fails the request with
`ParseError`, with the preceding chunks' decodings already accumulated. -/
theorem build_post_chunk_decode_parse_error (pre : List (List Nat)) (bad : List Nat)
    (rest : List Chunk) (fname : Option String) (u_path : String) (env : Env)
    (hdir : env.dirIsDir = true) (hcd2 : env.createDirOk2 = true)
    (hpre : ∀ d ∈ pre, (utf8Decode d).isSome) (hbad : utf8Decode bad = none) :
    build_post
        [.part ⟨some "post-editor", fname, pre.map Chunk.ok ++ Chunk.ok bad :: rest⟩]
        u_path env =
      .err .parseError { dirSt env with text_body := decodedTexts (pre.map Chunk.ok) } := by
  have hrt := readTextChunks_err pre bad rest (dirSt env) hpre hbad
  simp only [build_post, hdir, hcd2, Bool.not_true, Bool.false_and, Bool.false_eq_true,
    if_false, ite_false, buildLoop, processPart]
  rw [hrt]
  simp [dirSt, initSt]

/-- Witness for C6: the two-byte encoding of `é` split across two chunks is
valid as a whole but fails per-chunk decoding, so the request fails with
`ParseError` — exhibiting decoding per chunk rather than after
reassembly. -/
theorem build_post_chunk_decode_parse_error_witness :
    utf8Decode [0xC3] = none ∧
    utf8Decode [0xC3, 0xA9] = some "é" ∧
    build_post
        [.part ⟨some "post-editor", none,
          [Chunk.ok [104], Chunk.ok [0xC3], Chunk.ok [0xA9]]⟩] "up" envD =
      .err .parseError { dirSt envD with text_body := ["h"] } :=
  ⟨by decide, by decide, by
    have h := build_post_chunk_decode_parse_error [[104]] [0xC3] [Chunk.ok [0xA9]]
      none "up" envD rfl rfl (by decide) (by decide)
    simpa using h⟩

/-- Claim C7: when the part loop completes, a joined body that is empty
after trimming fails assembly with `ParseError`; a non-empty body yields a
successful `NewPost` whose image path is whatever was recorded — including
the empty path, i.e. an absent image is permitted. -/
theorem build_post_body_validation (payload : List PayloadItem) (u_path : String)
    (env : Env) (s : St)
    (hdir : env.dirIsDir = true ∨ env.createDirOk1 = true) (hcd2 : env.createDirOk2 = true)
    (hloop : buildLoop env u_path (env.cwd ++ "/" ++ u_path) payload (dirSt env) = .ok s) :
    (rustTrim (rustJoin " " s.text_body) = "" →
      build_post payload u_path env = .err .parseError s) ∧
    (rustTrim (rustJoin " " s.text_body) ≠ "" →
      build_post payload u_path env = .ok ⟨rustJoin " " s.text_body, s.filepath⟩ s) := by
  have hc : (!env.dirIsDir && !env.createDirOk1) = false := by
    rcases hdir with h | h <;> simp [h]
  constructor <;> intro hb
  · simp [build_post, hc, hcd2, hloop, NewPost.new, hb]
  · simp [build_post, hc, hcd2, hloop, NewPost.new, hb]

/-- Witness for C7: a whitespace-only `"post-editor"` field fails with
`ParseError`; a non-empty field with no image part succeeds with no
image. -/
theorem build_post_body_validation_witness :
    build_post [.part ⟨some "post-editor", none, [.ok [32]]⟩] "up" envD =
      .err .parseError { dirSt envD with text_body := [" "] } ∧
    build_post [.part ⟨some "post-editor", none, [.ok [104, 105]]⟩] "up" envD =
      .ok ⟨"hi", ""⟩ { dirSt envD with text_body := ["hi"] } :=
  ⟨(build_post_body_validation _ "up" envD { dirSt envD with text_body := [" "] }
      (Or.inl rfl) rfl (by decide)).1 (by decide),
   (build_post_body_validation _ "up" envD { dirSt envD with text_body := ["hi"] }
      (Or.inl rfl) rfl (by decide)).2 (by decide)⟩

/-- Claim C8 counterexample: with the upload root configured as
`"static/uploads"`, the recorded relative path is
`../static/uploads/{stored}` — built from the WHOLE configured path string
(`post.rs:123`), not from its last path component `uploads` as the claim
states. -/
theorem relative_path_full_upload_root_cex :
    build_post [.part ⟨some "post-editor", none, [.ok [120]]⟩,
                .part ⟨some "image", some "cat.png", [.ok [1]]⟩] "static/uploads" envD =
      .ok ⟨"x", "../static/uploads/id-cat.png"⟩
        { text_body := ["x"], filepath := "../static/uploads/id-cat.png",
          files := [("/app/static/uploads/id-cat.png", [1])], uuidIdx := 1,
          createIdx := 1, writeIdx := 1, dirCalls := 1 } ∧
    ("../static/uploads/id-cat.png" : String) ≠ "../uploads/id-cat.png" := by
  refine ⟨by decide, by decide⟩

/-- Claim C8 (amended): for an accepted `"image"` part the stored filename
is `{uuid}-{sanitize(original)}` with filesystem-unsafe and
path-traversal characters stripped by sanitization, the created file's
absolute path is `upload_root/stored_filename`, and the recorded relative
path is `../{u_path}/stored_filename` where `u_path` is the full configured
upload path string as given. -/
theorem image_part_path_format (env : Env) (u_path uppath fn : String) (cs : List Chunk)
    (s s1 : St) (hfn : rustTrim fn ≠ "")
    (h : processPart env u_path uppath ⟨some "image", some fn, cs⟩ s = .ok s1) :
    s1.filepath =
      "../" ++ u_path ++ "/" ++ (getUuid env.uuids s.uuidIdx ++ "-" ++ sanitize fn) ∧
    s1.files = s.files ++
      [(uppath ++ "/" ++ (getUuid env.uuids s.uuidIdx ++ "-" ++ sanitize fn),
        okChunkData cs)] ∧
    ∀ c ∈ (sanitize fn).toList, sanitizeIllegal c = false := by
  have h1 := processPart_ok env u_path uppath _ s s1 h
  subst h1
  refine ⟨?_, ?_, sanitize_no_illegal fn⟩
  · simp [partNext, hfn]
  · simp [partNext, hfn]

/-- Witness for the C8 amended theorem at a concrete accepted image part. -/
theorem image_part_path_format_witness :
    ({ initSt with uuidIdx := 1, createIdx := 1, writeIdx := 1,
                   filepath := "../static/uploads/id-cat.png",
                   files := [("/r/id-cat.png", [1, 2])] } : St).filepath =
      "../" ++ "static/uploads" ++ "/" ++ (getUuid envD.uuids 0 ++ "-" ++ sanitize "cat.png") ∧
    ({ initSt with uuidIdx := 1, createIdx := 1, writeIdx := 1,
                   filepath := "../static/uploads/id-cat.png",
                   files := [("/r/id-cat.png", [1, 2])] } : St).files = [] ++
      [("/r" ++ "/" ++ (getUuid envD.uuids 0 ++ "-" ++ sanitize "cat.png"),
        okChunkData [Chunk.ok [1, 2]])] ∧
    ∀ c ∈ (sanitize "cat.png").toList, sanitizeIllegal c = false :=
  image_part_path_format envD "static/uploads" "/r" "cat.png" [Chunk.ok [1, 2]]
    initSt _ (by decide) (by decide)

/-- Claim C9: a session lookup returning no identity makes `submit_post`
return a `303 See Other` redirect to `/login` with zero filesystem and zero
database side effects (no file, no directory call, no insert attempt), for
every payload; a failing session lookup fails with `PermissionDenied`,
likewise effect-free. -/
theorem submit_post_auth_gate (payload : List PayloadItem) (u_path : String)
    (env : Env) (dbOk : Bool) :
    submit_post .anon payload u_path env dbOk = (.seeOther "/login", initSt, false) ∧
    submit_post .sessErr payload u_path env dbOk = (.err .permissionDenied, initSt, false) ∧
    initSt.files = [] ∧ initSt.dirCalls = 0 ∧ initSt.text_body = [] := by
  exact ⟨rfl, rfl, rfl, rfl, rfl⟩

/-- Claim C10: a stream error while fetching the next part ends the loop
silently — `build_post` on any payload of the form
`pre ++ streamErr :: rest` behaves exactly as on `pre` alone, assembling
the post from whatever was accumulated and reporting no error for the
malformed remainder. -/
theorem build_post_stream_error_silent_stop (pre rest : List PayloadItem)
    (u_path : String) (env : Env) :
    build_post (pre ++ .streamErr :: rest) u_path env = build_post pre u_path env := by
  simp only [build_post]
  rw [buildLoop_streamErr]

end Showsk
